import Mathlib

/-!
Shallow embedding of `src/server/serverEngine.js` (class `ServerEngine`) from
the plinko repository, together with proofs about the claims of its
specification.

Modelling conventions:
* JS numbers that the game treats as integers are modelled as `Int`
  (ids, ownerIds, scores, targetScore, frame).
* A JS value that is either `null` or a number (a peg's `ownerId`, which is
  initialized to `null`) is modelled as `Option Int`, `none` being `null`.
* The score map is a JS object with string property keys; it is modelled as an
  insertion-ordered association list `List (String × Option Int)`, where the
  value `none` models `NaN` (the result of `undefined + 1` when a missing key
  is accessed with `+=`).
* The matter-js physics engine is external: bodies are modelled as opaque
  `Nat` handles, and `Engine.update` is modelled by the list of
  collision-start pairs it dispatches to `onCollisionStart` during the step.
  Body positions/angles live inside the engine and are not modelled.
* Timers (`setInterval` handles) are modelled as `Nat` handles; the set of
  live decay intervals is a list of handles.  `this.loop`, which `stopGame`
  passes to `clearInterval`, is modelled as an `Option Nat` field; no method
  of the class ever assigns it, so it stays `none`.
* The wall-clock catch-up condition `while (Date.now() > this.nextTimestep)`
  is abstracted by running the tick body once per element of a list of
  per-tick collision batches; real time is not modelled.
-/

namespace Plinko

/-- A JS value that is `null` or an integer (`none` = `null`). -/
abbrev OwnerVal := Option Int

/-- A JS numeric value that may be `NaN` (`none` = `NaN`). -/
abbrev JsNum := Option Int

/-- The score map `this.score`: a JS object with string keys, insertion
ordered. -/
abbrev ScoreMap := List (String × JsNum)

/-- JS truthiness of a null-or-number value: `null` and `0` are falsy.
This is the test performed by `if (formerPegOwner) { ... }` in
`updateScore` (line 81 of the source). -/
def jsTruthy : OwnerVal → Bool
  | none => false
  | some n => n != 0

/-- JS `String(v)` / property-key coercion for a null-or-number value. -/
def jsStr : OwnerVal → String
  | none => "null"
  | some n => toString n

/-- JS `>=` where the left operand may be `NaN` (`NaN >= t` is false). -/
def jsGe : JsNum → Int → Bool
  | none, _ => false
  | some v, t => t ≤ v

/-- Whether the score object has the property `k`. -/
def scoreHasKey (m : ScoreMap) (k : String) : Bool :=
  m.any (fun p => p.1 == k)

/-- JS `m[k] += d` on a numeric object: if the key is present the value is
updated (`NaN + d = NaN`); if it is absent, `undefined + d` is `NaN` and the
assignment creates the key.  No error is raised in either case. -/
def jsAddAssign (m : ScoreMap) (k : String) (d : Int) : ScoreMap :=
  if scoreHasKey m k then
    m.map (fun p => if p.1 == k then (p.1, p.2.map (fun v => v + d)) else p)
  else
    m ++ [(k, none)]

/-- Embeds `ServerEngine#incrementScore`: `this.score[chipOwner] += 1`. -/
def incrementScore (m : ScoreMap) (chipOwner : OwnerVal) : ScoreMap :=
  jsAddAssign m (jsStr chipOwner) 1

/-- Embeds `ServerEngine#decrementScore`: `this.score[formerPegOwner] -= 1`. -/
def decrementScore (m : ScoreMap) (formerPegOwner : OwnerVal) : ScoreMap :=
  jsAddAssign m (jsStr formerPegOwner) (-1)

/-- Embeds `ServerEngine#updateScore` (lines 72–83), with the two
`parentObject.ownerId` reads hoisted into arguments.  The guard
`chipOwner !== formerPegOwner` is strict JS inequality between a number and a
null-or-number, which is exactly `≠` on `Option Int`; the inner guard
`if (formerPegOwner)` is JS truthiness (`jsTruthy`). -/
def updateScore (m : ScoreMap) (formerPegOwner chipOwner : OwnerVal) : ScoreMap :=
  if chipOwner ≠ formerPegOwner then
    let m1 := incrementScore m chipOwner
    if jsTruthy formerPegOwner then decrementScore m1 formerPegOwner else m1
  else m

/-- `this.score` as set by `initializeScore`: `{ 0: 0, 1: 0, 2: 0, 3: 0 }`. -/
def initialScore : ScoreMap :=
  [("0", some 0), ("1", some 0), ("2", some 0), ("3", some 0)]

/-- A chip (`shared/bodies/Chip` is not under src/; the fields used by the
server are its `id`, `ownerId` and the handle of its physics body). -/
structure Chip where
  id : Int
  ownerId : Int
  body : Nat
  deriving DecidableEq

/-- A peg.  `shared/bodies/Peg` is not under src/; per the source comment in
`updateScore`, "Pegs initialize with owner set to null", and `_createPegs`
constructs each peg from `{ id, x, y }`. -/
structure Peg where
  id : Nat
  x : Int
  y : Int
  ownerId : OwnerVal
  deriving DecidableEq

/-- Modelled from the spec: §4.1 InputBuffer — an `Input` wraps the
`{id, ownerId, x, y}` fields of a `newChip` payload (`./inputBuffer` is not
under src/). -/
structure Input where
  id : Int
  ownerId : Int
  x : Int
  y : Int
  deriving DecidableEq

/-- The combined chip key built at lines 103 and 149 of the source:
`String(ownerId) + String(id)` — string concatenation, not a pair. -/
def combinedId (inp : Input) : String :=
  toString inp.ownerId ++ toString inp.id

/-- Whether the chip registry object has the property `k`. -/
def registryHasKey (reg : List (String × Chip)) (k : String) : Bool :=
  reg.any (fun p => p.1 == k)

/-- JS object property assignment `obj[k] = v`: replaces the value in place
when the key exists (silent overwrite), otherwise appends the key. -/
def objSet (reg : List (String × Chip)) (k : String) (c : Chip) :
    List (String × Chip) :=
  if registryHasKey reg k then
    reg.map (fun p => if p.1 == k then (k, c) else p)
  else
    reg ++ [(k, c)]

/-- JS `delete obj[k]`. -/
def objDelete (reg : List (String × Chip)) (k : String) : List (String × Chip) :=
  reg.filter (fun p => !(p.1 == k))

/-- JS property read `obj[k]` on the chip registry. -/
def objLookup (reg : List (String × Chip)) (k : String) : Option Chip :=
  (reg.find? (fun p => p.1 == k)).map (fun p => p.2)

/-- A collision-start pair as dispatched by the physics engine.  `aPegIdx` is
the index in `this.pegs` of `bodyA.parentObject` when `bodyA` is a peg (the
JS objects are aliased; the index models the aliasing).  `bOwnerId`, `bId`
and `bBody` are `bodyB.parentObject.ownerId`, `.id` and the handle of its
body. -/
structure CollisionPair where
  aLabel : String
  aPegIdx : Nat
  bLabel : String
  bOwnerId : OwnerVal
  bId : Int
  bBody : Nat
  deriving DecidableEq

/-- The whole mutable state of a `ServerEngine` instance (constructor plus
`init()`), restricted to what the server logic reads and writes. -/
structure GameState where
  frame : Int
  chips : List (String × Chip)
  pegs : List Peg
  winner : Bool
  score : ScoreMap
  targetScore : Int
  targetScoreInterval : Bool
  decayIntervals : List Nat
  loop : Option Nat
  nextHandle : Nat
  worldBodies : List Nat
  inputBuffer : List Input
  deriving DecidableEq

/-- `bodyA.parentObject.ownerId` for a peg body, through its index. -/
def pegOwnerAt (pegs : List Peg) (i : Nat) : OwnerVal :=
  match pegs.get? i with
  | some p => p.ownerId
  | none => none

/-- Assignment `bodyA.parentObject.ownerId = v` through the peg's index. -/
def setPegOwner (pegs : List Peg) (i : Nat) (o : OwnerVal) : List Peg :=
  match pegs.get? i with
  | some p => pegs.set i { p with ownerId := o }
  | none => pegs

/-- Embeds the body of the `for` loop of `ServerEngine#onCollisionStart`
(lines 88–108) for one pair:
* lines 93–95: if `bodyA` is a peg, `bodyB` a chip and there is no winner,
  update the score;
* lines 97–99: if `bodyA` is a peg, overwrite its owner with
  `bodyB.parentObject.ownerId` — with no condition on `bodyB`'s label and no
  condition on the winner flag;
* lines 101–107: if `bodyA` is the ground, remove `bodyB`'s parent chip's
  body from the engine world and delete its registry entry. -/
def processPair (s : GameState) (p : CollisionPair) : GameState :=
  let s1 :=
    if p.aLabel = "peg" ∧ p.bLabel = "chip" ∧ s.winner = false then
      { s with score := updateScore s.score (pegOwnerAt s.pegs p.aPegIdx) p.bOwnerId }
    else s
  let s2 :=
    if p.aLabel = "peg" then
      { s1 with pegs := setPegOwner s1.pegs p.aPegIdx p.bOwnerId }
    else s1
  if p.aLabel = "ground" then
    { s2 with
      worldBodies := s2.worldBodies.erase p.bBody,
      chips := objDelete s2.chips (jsStr p.bOwnerId ++ toString p.bId) }
  else s2

/-- Embeds `ServerEngine#onCollisionStart` over the event's pair list. -/
def onCollisionStart (s : GameState) (pairs : List CollisionPair) : GameState :=
  pairs.foldl processPair s

/-- Embeds `ServerEngine#stopGame` (lines 198–200): `clearInterval(this.loop)`.
`this.loop` is never assigned anywhere in the class, so the match's first arm
is the one that ever runs: `clearInterval(undefined)` is a no-op. -/
def stopGame (s : GameState) : GameState :=
  match s.loop with
  | none => s
  | some h => { s with decayIntervals := s.decayIntervals.erase h }

/-- Embeds `ServerEngine#detectWinner` (lines 154–164).
`Object.values(this.score)` enumerates the values in key insertion order;
`some(score => score >= this.targetScore)` is `List.any` with `jsGe`. -/
def detectWinner (s : GameState) : GameState :=
  let scores := s.score.map (fun p => p.2)
  let winningPlayer := scores.any (fun v => jsGe v s.targetScore)
  if winningPlayer then stopGame { s with winner := true } else s

/-- Embeds `ServerEngine#reduceTargetScoreInterval` (lines 166–171): sets the
flag and registers a fresh recurring interval that decrements
`this.targetScore`; the `setInterval` handle is discarded (in particular it is
not stored in `this.loop`). -/
def reduceTargetScoreInterval (s : GameState) : GameState :=
  { s with
    targetScoreInterval := true,
    decayIntervals := s.decayIntervals ++ [s.nextHandle],
    nextHandle := s.nextHandle + 1 }

/-- One firing of a decay interval with handle `h`: the runtime only fires
live timers, and the registered callback is `this.targetScore -= 1`. -/
def fireDecay (s : GameState) (h : Nat) : GameState :=
  if h ∈ s.decayIntervals then { s with targetScore := s.targetScore - 1 } else s

/-- Embeds the body of the `while` loop of `ServerEngine#processInputBuffer`
(lines 143–151) for one input: build a `Chip`, add its body to the engine
world (`chip.addToEngine`), and register it under its combined key
(silently overwriting an existing entry, whose body handle is leaked). -/
def spawnChip (s : GameState) (input : Input) : GameState :=
  let chip : Chip := { id := input.id, ownerId := input.ownerId, body := s.nextHandle }
  { s with
    worldBodies := s.worldBodies ++ [s.nextHandle],
    nextHandle := s.nextHandle + 1,
    chips := objSet s.chips (combinedId input) chip }

/-- Embeds `ServerEngine#processInputBuffer` (lines 142–152): shift inputs
until the buffer is empty, spawning a chip for each. -/
def processInputBuffer (s : GameState) : GameState :=
  s.inputBuffer.foldl spawnChip { s with inputBuffer := [] }

/-- Embeds the `NEW_CHIP` socket handler (lines 128–130): the payload is
wrapped in an `Input` and inserted into the buffer with no validation of any
field. -/
def onNewChip (s : GameState) (chipInfo : Input) : GameState :=
  { s with inputBuffer := s.inputBuffer ++ [chipInfo] }

/-- Modelled from the spec: the fixed starting constant `TARGET_SCORE`
imported from `shared/constants/game` (not under src/).  The spec fixes no
value; the proofs use it only symbolically. -/
def TARGET_SCORE : Int := 10

/-- Embeds one iteration of the `while (Date.now() > this.nextTimestep)` loop
of `ServerEngine#startGame` (lines 176–193): increment the frame, drain the
input buffer if nonempty, step the engine (which synchronously dispatches the
step's collision-start events to `onCollisionStart`), detect a winner if none
yet, start the decay interval if not yet started, then build and broadcast a
snapshot (reads only — see `generateSnapshot`). -/
def tick (s : GameState) (events : List CollisionPair) : GameState :=
  let s1 := { s with frame := s.frame + 1 }
  let s2 := if s1.inputBuffer.isEmpty then s1 else processInputBuffer s1
  let s3 := onCollisionStart s2 events
  let s4 := if s3.winner = false then detectWinner s3 else s3
  if s4.targetScoreInterval = false then reduceTargetScoreInterval s4 else s4

/-- A catch-up burst: one `tick` per wall-clock-due timestep, each with the
collision batch its engine step produces. -/
def runTicks (s : GameState) (batches : List (List CollisionPair)) : GameState :=
  batches.foldl tick s

/-- Embeds one invocation of `ServerEngine#startGame`: run the due ticks,
then line 195 — `setImmediate(this.startGame.bind(this))` — reschedules the
loop unconditionally; the returned boolean is whether the loop rescheduled
itself. -/
def startGameBurst (s : GameState) (batches : List (List CollisionPair)) :
    GameState × Bool :=
  (runTicks s batches, true)

/-- One chip entry of a snapshot.  The `x`, `y`, `angle` fields read from
`chip.body.position` live in the external physics engine and are not
modelled. -/
structure ChipInfo where
  id : Int
  ownerId : Int
  deriving DecidableEq

/-- One peg entry of a snapshot: exactly `{ id: peg.id, ownerId: peg.ownerId }`
(line 218 of the source). -/
structure PegInfo where
  id : Nat
  ownerId : OwnerVal
  deriving DecidableEq

/-- The snapshot value returned by `ServerEngine#generateSnapshot`. -/
structure Snapshot where
  chips : List ChipInfo
  pegs : List PegInfo
  score : ScoreMap
  winner : Bool
  targetScore : Int
  deriving DecidableEq

/-- Embeds `ServerEngine#generateSnapshot` (lines 202–222).
`Object.values(chips)` lists the registry values in key insertion order. -/
def generateSnapshot (s : GameState) : Snapshot :=
  { chips := s.chips.map (fun p => { id := p.2.id, ownerId := p.2.ownerId }),
    pegs := s.pegs.map (fun peg => { id := peg.id, ownerId := peg.ownerId }),
    score := s.score,
    winner := s.winner,
    targetScore := s.targetScore }

/-- `ServerEngine#generateSnapshot` in state-transformer form: the method body
contains no assignment to `this` or to its arguments (the reassignment
`chips = Object.values(chips)` rebinds a parameter-local variable), so the
resulting state is the input state. -/
def generateSnapshotT (s : GameState) : Snapshot × GameState :=
  (generateSnapshot s, s)

/-- Embeds the inner `for (col ...)` loop of `ServerEngine#_createPegs`
(lines 270–290) for a row, from column `col` and id counter `id` on: columns
run from 1 while `col < cols`; on an odd row the last peg is skipped via
`break`; on an odd row `x` gets the extra horizontal offset.  The first
argument is fuel bounding the number of remaining iterations (any value with
`cols ≤ fuel + col` makes the guard `col < cols` the one that ends the
loop). -/
def pegRowGo (row cols : Nat) (cs rs vm ho : Int) :
    Nat → Nat → Nat → List Peg
  | 0, _, _ => []
  | fuel + 1, col, id =>
    if col < cols then
      if row % 2 = 1 ∧ col = cols - 1 then []
      else
        { id := id,
          x := (col : Int) * cs + (if row % 2 = 1 then ho else 0),
          y := vm + (row : Int) * rs,
          ownerId := none } ::
        pegRowGo row cols cs rs vm ho fuel (col + 1) (id + 1)
    else []

/-- Embeds the outer `for (row ...)` loop of `ServerEngine#_createPegs`:
`this.pegs[id] = peg` with the dense, strictly increasing id counter is the
same as appending each row's pegs in order.  The first argument is fuel as in
`pegRowGo`. -/
def pegRowsGo (rows cols : Nat) (cs rs vm ho : Int) :
    Nat → Nat → Nat → List Peg
  | 0, _, _ => []
  | fuel + 1, row, id =>
    if row < rows then
      pegRowGo row cols cs rs vm ho cols 1 id ++
      pegRowsGo rows cols cs rs vm ho fuel (row + 1)
        (id + (pegRowGo row cols cs rs vm ho cols 1 id).length)
    else []

/-- Embeds `ServerEngine#_createPegs` (lines 264–291).  The layout constants
(`ROWS`, `COLS`, `COL_SPACING`, `ROW_SPACING`, `VERTICAL_MARGIN`,
`HORIZONTAL_OFFSET`) come from `shared/constants/canvas`, which is not under
src/; they are taken as parameters. -/
def createPegs (rows cols : Nat) (cs rs vm ho : Int) : List Peg :=
  pegRowsGo rows cols cs rs vm ho rows 0 0

/-- The state after `new ServerEngine(...)` (frame 0) followed by `init()`:
empty chip registry, pegs from `_createPegs`, no winner, `initializeScore`
(target at `TARGET_SCORE`, decay-interval flag false), no live timers,
`this.loop` unassigned, empty input buffer. -/
def initState (rows cols : Nat) (cs rs vm ho : Int) : GameState :=
  { frame := 0,
    chips := [],
    pegs := createPegs rows cols cs rs vm ho,
    winner := false,
    score := initialScore,
    targetScore := TARGET_SCORE,
    targetScoreInterval := false,
    decayIntervals := [],
    loop := none,
    nextHandle := 0,
    worldBodies := [],
    inputBuffer := [] }

/-- The chips that a drain appends when every spawned key is fresh: one entry
per input, in order, with body handles allocated consecutively from `h0`. -/
def spawnedFrom (h0 : Nat) : List Input → List (String × Chip)
  | [] => []
  | inp :: rest =>
    (combinedId inp, { id := inp.id, ownerId := inp.ownerId, body := h0 }) ::
    spawnedFrom (h0 + 1) rest

/-! ### Projection of `if` on states, and field preservation by each phase -/

@[simp] theorem ite_frame (c : Prop) [Decidable c] (a b : GameState) :
    (if c then a else b).frame = if c then a.frame else b.frame :=
  apply_ite GameState.frame c a b

@[simp] theorem ite_winner (c : Prop) [Decidable c] (a b : GameState) :
    (if c then a else b).winner = if c then a.winner else b.winner :=
  apply_ite GameState.winner c a b

@[simp] theorem ite_score (c : Prop) [Decidable c] (a b : GameState) :
    (if c then a else b).score = if c then a.score else b.score :=
  apply_ite GameState.score c a b

@[simp] theorem ite_targetScore (c : Prop) [Decidable c] (a b : GameState) :
    (if c then a else b).targetScore = if c then a.targetScore else b.targetScore :=
  apply_ite GameState.targetScore c a b

@[simp] theorem ite_tsi (c : Prop) [Decidable c] (a b : GameState) :
    (if c then a else b).targetScoreInterval =
      if c then a.targetScoreInterval else b.targetScoreInterval :=
  apply_ite GameState.targetScoreInterval c a b

@[simp] theorem ite_decay (c : Prop) [Decidable c] (a b : GameState) :
    (if c then a else b).decayIntervals =
      if c then a.decayIntervals else b.decayIntervals :=
  apply_ite GameState.decayIntervals c a b

@[simp] theorem ite_loop (c : Prop) [Decidable c] (a b : GameState) :
    (if c then a else b).loop = if c then a.loop else b.loop :=
  apply_ite GameState.loop c a b

@[simp] theorem ite_pegs (c : Prop) [Decidable c] (a b : GameState) :
    (if c then a else b).pegs = if c then a.pegs else b.pegs :=
  apply_ite GameState.pegs c a b

@[simp] theorem ite_inputBuffer (c : Prop) [Decidable c] (a b : GameState) :
    (if c then a else b).inputBuffer = if c then a.inputBuffer else b.inputBuffer :=
  apply_ite GameState.inputBuffer c a b

@[simp] theorem spawnChip_frame (s : GameState) (i : Input) :
    (spawnChip s i).frame = s.frame := rfl

@[simp] theorem spawnChip_pegs (s : GameState) (i : Input) :
    (spawnChip s i).pegs = s.pegs := rfl

@[simp] theorem spawnChip_winner (s : GameState) (i : Input) :
    (spawnChip s i).winner = s.winner := rfl

@[simp] theorem spawnChip_score (s : GameState) (i : Input) :
    (spawnChip s i).score = s.score := rfl

@[simp] theorem spawnChip_targetScore (s : GameState) (i : Input) :
    (spawnChip s i).targetScore = s.targetScore := rfl

@[simp] theorem spawnChip_tsi (s : GameState) (i : Input) :
    (spawnChip s i).targetScoreInterval = s.targetScoreInterval := rfl

@[simp] theorem spawnChip_decay (s : GameState) (i : Input) :
    (spawnChip s i).decayIntervals = s.decayIntervals := rfl

@[simp] theorem spawnChip_loop (s : GameState) (i : Input) :
    (spawnChip s i).loop = s.loop := rfl

@[simp] theorem spawnChip_inputBuffer (s : GameState) (i : Input) :
    (spawnChip s i).inputBuffer = s.inputBuffer := rfl

@[simp] theorem foldl_spawnChip_frame (l : List Input) :
    ∀ s : GameState, (l.foldl spawnChip s).frame = s.frame := by
  induction l with
  | nil => intro s; rfl
  | cons a l ih => intro s; rw [List.foldl_cons, ih, spawnChip_frame]

@[simp] theorem foldl_spawnChip_pegs (l : List Input) :
    ∀ s : GameState, (l.foldl spawnChip s).pegs = s.pegs := by
  induction l with
  | nil => intro s; rfl
  | cons a l ih => intro s; rw [List.foldl_cons, ih, spawnChip_pegs]

@[simp] theorem foldl_spawnChip_winner (l : List Input) :
    ∀ s : GameState, (l.foldl spawnChip s).winner = s.winner := by
  induction l with
  | nil => intro s; rfl
  | cons a l ih => intro s; rw [List.foldl_cons, ih, spawnChip_winner]

@[simp] theorem foldl_spawnChip_score (l : List Input) :
    ∀ s : GameState, (l.foldl spawnChip s).score = s.score := by
  induction l with
  | nil => intro s; rfl
  | cons a l ih => intro s; rw [List.foldl_cons, ih, spawnChip_score]

@[simp] theorem foldl_spawnChip_targetScore (l : List Input) :
    ∀ s : GameState, (l.foldl spawnChip s).targetScore = s.targetScore := by
  induction l with
  | nil => intro s; rfl
  | cons a l ih => intro s; rw [List.foldl_cons, ih, spawnChip_targetScore]

@[simp] theorem foldl_spawnChip_tsi (l : List Input) :
    ∀ s : GameState, (l.foldl spawnChip s).targetScoreInterval = s.targetScoreInterval := by
  induction l with
  | nil => intro s; rfl
  | cons a l ih => intro s; rw [List.foldl_cons, ih, spawnChip_tsi]

@[simp] theorem foldl_spawnChip_decay (l : List Input) :
    ∀ s : GameState, (l.foldl spawnChip s).decayIntervals = s.decayIntervals := by
  induction l with
  | nil => intro s; rfl
  | cons a l ih => intro s; rw [List.foldl_cons, ih, spawnChip_decay]

@[simp] theorem foldl_spawnChip_loop (l : List Input) :
    ∀ s : GameState, (l.foldl spawnChip s).loop = s.loop := by
  induction l with
  | nil => intro s; rfl
  | cons a l ih => intro s; rw [List.foldl_cons, ih, spawnChip_loop]

@[simp] theorem processInputBuffer_frame (s : GameState) :
    (processInputBuffer s).frame = s.frame := by
  simp [processInputBuffer]

@[simp] theorem processInputBuffer_pegs (s : GameState) :
    (processInputBuffer s).pegs = s.pegs := by
  simp [processInputBuffer]

@[simp] theorem processInputBuffer_winner (s : GameState) :
    (processInputBuffer s).winner = s.winner := by
  simp [processInputBuffer]

@[simp] theorem processInputBuffer_score (s : GameState) :
    (processInputBuffer s).score = s.score := by
  simp [processInputBuffer]

@[simp] theorem processInputBuffer_targetScore (s : GameState) :
    (processInputBuffer s).targetScore = s.targetScore := by
  simp [processInputBuffer]

@[simp] theorem processInputBuffer_tsi (s : GameState) :
    (processInputBuffer s).targetScoreInterval = s.targetScoreInterval := by
  simp [processInputBuffer]

@[simp] theorem processInputBuffer_decay (s : GameState) :
    (processInputBuffer s).decayIntervals = s.decayIntervals := by
  simp [processInputBuffer]

@[simp] theorem processInputBuffer_loop (s : GameState) :
    (processInputBuffer s).loop = s.loop := by
  simp [processInputBuffer]

@[simp] theorem processPair_frame (s : GameState) (p : CollisionPair) :
    (processPair s p).frame = s.frame := by
  simp only [processPair]
  split <;> simp

@[simp] theorem processPair_winner (s : GameState) (p : CollisionPair) :
    (processPair s p).winner = s.winner := by
  simp only [processPair]
  split <;> simp

@[simp] theorem processPair_targetScore (s : GameState) (p : CollisionPair) :
    (processPair s p).targetScore = s.targetScore := by
  simp only [processPair]
  split <;> simp

@[simp] theorem processPair_tsi (s : GameState) (p : CollisionPair) :
    (processPair s p).targetScoreInterval = s.targetScoreInterval := by
  simp only [processPair]
  split <;> simp

@[simp] theorem processPair_decay (s : GameState) (p : CollisionPair) :
    (processPair s p).decayIntervals = s.decayIntervals := by
  simp only [processPair]
  split <;> simp

@[simp] theorem processPair_loop (s : GameState) (p : CollisionPair) :
    (processPair s p).loop = s.loop := by
  simp only [processPair]
  split <;> simp

@[simp] theorem processPair_inputBuffer (s : GameState) (p : CollisionPair) :
    (processPair s p).inputBuffer = s.inputBuffer := by
  simp only [processPair]
  split <;> simp

theorem foldl_processPair_frame (pairs : List CollisionPair) :
    ∀ s : GameState, (pairs.foldl processPair s).frame = s.frame := by
  induction pairs with
  | nil => intro s; rfl
  | cons a l ih =>
    intro s
    rw [List.foldl_cons, ih, processPair_frame]

@[simp] theorem onCollisionStart_frame (pairs : List CollisionPair) (s : GameState) :
    (onCollisionStart s pairs).frame = s.frame :=
  foldl_processPair_frame pairs s

theorem foldl_processPair_winner (pairs : List CollisionPair) :
    ∀ s : GameState, (pairs.foldl processPair s).winner = s.winner := by
  induction pairs with
  | nil => intro s; rfl
  | cons a l ih =>
    intro s
    rw [List.foldl_cons, ih, processPair_winner]

@[simp] theorem onCollisionStart_winner (pairs : List CollisionPair) (s : GameState) :
    (onCollisionStart s pairs).winner = s.winner :=
  foldl_processPair_winner pairs s

theorem foldl_processPair_targetScore (pairs : List CollisionPair) :
    ∀ s : GameState, (pairs.foldl processPair s).targetScore = s.targetScore := by
  induction pairs with
  | nil => intro s; rfl
  | cons a l ih =>
    intro s
    rw [List.foldl_cons, ih, processPair_targetScore]

@[simp] theorem onCollisionStart_targetScore (pairs : List CollisionPair) (s : GameState) :
    (onCollisionStart s pairs).targetScore = s.targetScore :=
  foldl_processPair_targetScore pairs s

theorem foldl_processPair_tsi (pairs : List CollisionPair) :
    ∀ s : GameState, (pairs.foldl processPair s).targetScoreInterval = s.targetScoreInterval := by
  induction pairs with
  | nil => intro s; rfl
  | cons a l ih =>
    intro s
    rw [List.foldl_cons, ih, processPair_tsi]

@[simp] theorem onCollisionStart_tsi (pairs : List CollisionPair) (s : GameState) :
    (onCollisionStart s pairs).targetScoreInterval = s.targetScoreInterval :=
  foldl_processPair_tsi pairs s

theorem foldl_processPair_decay (pairs : List CollisionPair) :
    ∀ s : GameState, (pairs.foldl processPair s).decayIntervals = s.decayIntervals := by
  induction pairs with
  | nil => intro s; rfl
  | cons a l ih =>
    intro s
    rw [List.foldl_cons, ih, processPair_decay]

@[simp] theorem onCollisionStart_decay (pairs : List CollisionPair) (s : GameState) :
    (onCollisionStart s pairs).decayIntervals = s.decayIntervals :=
  foldl_processPair_decay pairs s

theorem foldl_processPair_loop (pairs : List CollisionPair) :
    ∀ s : GameState, (pairs.foldl processPair s).loop = s.loop := by
  induction pairs with
  | nil => intro s; rfl
  | cons a l ih =>
    intro s
    rw [List.foldl_cons, ih, processPair_loop]

@[simp] theorem onCollisionStart_loop (pairs : List CollisionPair) (s : GameState) :
    (onCollisionStart s pairs).loop = s.loop :=
  foldl_processPair_loop pairs s

@[simp] theorem stopGame_frame (s : GameState) : (stopGame s).frame = s.frame := by
  cases h : s.loop <;> simp [stopGame, h]

@[simp] theorem stopGame_winner (s : GameState) : (stopGame s).winner = s.winner := by
  cases h : s.loop <;> simp [stopGame, h]

@[simp] theorem stopGame_score (s : GameState) : (stopGame s).score = s.score := by
  cases h : s.loop <;> simp [stopGame, h]

@[simp] theorem stopGame_targetScore (s : GameState) :
    (stopGame s).targetScore = s.targetScore := by
  cases h : s.loop <;> simp [stopGame, h]

@[simp] theorem stopGame_tsi (s : GameState) :
    (stopGame s).targetScoreInterval = s.targetScoreInterval := by
  cases h : s.loop <;> simp [stopGame, h]

@[simp] theorem stopGame_pegs (s : GameState) : (stopGame s).pegs = s.pegs := by
  cases h : s.loop <;> simp [stopGame, h]

@[simp] theorem stopGame_loop (s : GameState) : (stopGame s).loop = s.loop := by
  cases h : s.loop <;> simp [stopGame, h]

theorem stopGame_decay_of_loop_none (s : GameState) (h : s.loop = none) :
    (stopGame s).decayIntervals = s.decayIntervals := by
  simp [stopGame, h]

@[simp] theorem detectWinner_frame (s : GameState) :
    (detectWinner s).frame = s.frame := by
  simp [detectWinner]

@[simp] theorem detectWinner_targetScore (s : GameState) :
    (detectWinner s).targetScore = s.targetScore := by
  simp [detectWinner]

@[simp] theorem detectWinner_tsi (s : GameState) :
    (detectWinner s).targetScoreInterval = s.targetScoreInterval := by
  simp [detectWinner]

@[simp] theorem detectWinner_pegs (s : GameState) :
    (detectWinner s).pegs = s.pegs := by
  simp [detectWinner]

@[simp] theorem detectWinner_loop (s : GameState) :
    (detectWinner s).loop = s.loop := by
  simp [detectWinner]

@[simp] theorem detectWinner_decay_of_loop_none (s : GameState) (h : s.loop = none) :
    (detectWinner s).decayIntervals = s.decayIntervals := by
  simp only [detectWinner]
  split
  · exact stopGame_decay_of_loop_none _ h
  · rfl

theorem detectWinner_winner_of_true (s : GameState) (h : s.winner = true) :
    (detectWinner s).winner = true := by
  simp only [detectWinner]
  split
  · rw [stopGame_winner]
  · exact h

@[simp] theorem reduceTSI_frame (s : GameState) :
    (reduceTargetScoreInterval s).frame = s.frame := rfl

@[simp] theorem reduceTSI_winner (s : GameState) :
    (reduceTargetScoreInterval s).winner = s.winner := rfl

@[simp] theorem reduceTSI_score (s : GameState) :
    (reduceTargetScoreInterval s).score = s.score := rfl

@[simp] theorem reduceTSI_targetScore (s : GameState) :
    (reduceTargetScoreInterval s).targetScore = s.targetScore := rfl

@[simp] theorem reduceTSI_tsi (s : GameState) :
    (reduceTargetScoreInterval s).targetScoreInterval = true := rfl

@[simp] theorem reduceTSI_pegs (s : GameState) :
    (reduceTargetScoreInterval s).pegs = s.pegs := rfl

@[simp] theorem reduceTSI_loop (s : GameState) :
    (reduceTargetScoreInterval s).loop = s.loop := rfl

@[simp] theorem reduceTSI_decay (s : GameState) :
    (reduceTargetScoreInterval s).decayIntervals = s.decayIntervals ++ [s.nextHandle] := rfl

/-! ### Tick-level lemmas -/

theorem tick_frame (s : GameState) (e : List CollisionPair) :
    (tick s e).frame = s.frame + 1 := by
  simp [tick]

theorem tick_targetScore (s : GameState) (e : List CollisionPair) :
    (tick s e).targetScore = s.targetScore := by
  simp [tick]

theorem tick_loop (s : GameState) (e : List CollisionPair) :
    (tick s e).loop = s.loop := by
  simp [tick]

theorem tick_winner_of_true (s : GameState) (e : List CollisionPair)
    (h : s.winner = true) : (tick s e).winner = true := by
  simp [tick, h]

theorem runTicks_frame (batches : List (List CollisionPair)) :
    ∀ s : GameState, (runTicks s batches).frame = s.frame + (batches.length : Int) := by
  induction batches with
  | nil => intro s; simp [runTicks]
  | cons b bs ih =>
    intro s
    simp only [runTicks, List.foldl_cons] at ih ⊢
    rw [ih, tick_frame]
    simp only [List.length_cons]
    push_cast
    ring

theorem runTicks_winner_of_true (batches : List (List CollisionPair)) :
    ∀ s : GameState, s.winner = true → (runTicks s batches).winner = true := by
  induction batches with
  | nil => intro s h; exact h
  | cons b bs ih =>
    intro s h
    simp only [runTicks, List.foldl_cons] at ih ⊢
    exact ih _ (tick_winner_of_true s b h)

theorem processPair_score_of_winner (s : GameState) (p : CollisionPair)
    (h : s.winner = true) : (processPair s p).score = s.score := by
  simp [processPair, h]

theorem foldl_processPair_score_of_winner (pairs : List CollisionPair) :
    ∀ s : GameState, s.winner = true → (pairs.foldl processPair s).score = s.score := by
  induction pairs with
  | nil => intro s _; rfl
  | cons a l ih =>
    intro s h
    rw [List.foldl_cons, ih _ (by rw [processPair_winner]; exact h),
      processPair_score_of_winner _ _ h]

theorem processPair_pegs (s : GameState) (p : CollisionPair) :
    (processPair s p).pegs =
      if p.aLabel = "peg" then setPegOwner s.pegs p.aPegIdx p.bOwnerId
      else s.pegs := by
  by_cases h1 : p.aLabel = "peg"
  · have hg : ¬ p.aLabel = "ground" := by rw [h1]; decide
    simp [processPair, h1, hg]
  · by_cases hg : p.aLabel = "ground" <;> simp [processPair, h1, hg]

theorem setPegOwner_get_ownerId (pegs : List Peg) :
    ∀ (i : Nat) (o : OwnerVal), i < pegs.length →
      ((setPegOwner pegs i o).get? i).map (fun peg => peg.ownerId) = some o := by
  induction pegs with
  | nil => intro i o h; exact absurd h (by simp)
  | cons p l ih =>
    intro i o h
    match i with
    | 0 => simp [setPegOwner]
    | j + 1 =>
      have hj : j < l.length := by simpa using h
      rcases List.get?_eq_get hj with hq
      simp only [setPegOwner, List.get?_cons_succ, List.get? ] at hq ⊢
      rw [List.get?_eq_get hj]
      have := ih j o hj
      rw [setPegOwner, List.get?_eq_get hj] at this
      simpa using this

theorem ite_tsi_true (t : GameState) :
    (if t.targetScoreInterval = false then reduceTargetScoreInterval t
     else t).targetScoreInterval = true := by
  by_cases ht : t.targetScoreInterval = false
  · rw [if_pos ht]; rfl
  · rw [if_neg ht]
    cases hb : t.targetScoreInterval
    · exact absurd hb ht
    · rfl

theorem tick_tsi (s : GameState) (e : List CollisionPair) :
    (tick s e).targetScoreInterval = true := by
  simp only [tick]
  exact ite_tsi_true _

theorem tick_decay_of_started (s : GameState) (e : List CollisionPair)
    (hts : s.targetScoreInterval = true) (hl : s.loop = none) :
    (tick s e).decayIntervals = s.decayIntervals := by
  simp [tick, hts, hl]

theorem tick_decay_len_first (s : GameState) (e : List CollisionPair)
    (hts : s.targetScoreInterval = false) (hl : s.loop = none) :
    (tick s e).decayIntervals.length = s.decayIntervals.length + 1 := by
  simp [tick, hts, hl]

theorem pegRowGo_ids (row cols : Nat) (cs rs vm ho : Int) :
    ∀ (fuel col id : Nat),
      (pegRowGo row cols cs rs vm ho fuel col id).map (fun p => p.id) =
        List.range' id (pegRowGo row cols cs rs vm ho fuel col id).length := by
  intro fuel
  induction fuel with
  | zero => intro col id; rfl
  | succ f ih =>
    intro col id
    by_cases h1 : col < cols
    · by_cases h2 : row % 2 = 1 ∧ col = cols - 1
      · simp [pegRowGo, h1, h2]
      · simp only [pegRowGo, if_pos h1, if_neg h2, List.map_cons, List.length_cons]
        rw [List.range'_succ, ih (col + 1) (id + 1)]
    · simp [pegRowGo, h1]

theorem pegRowsGo_ids (rows cols : Nat) (cs rs vm ho : Int) :
    ∀ (fuel row id : Nat),
      (pegRowsGo rows cols cs rs vm ho fuel row id).map (fun p => p.id) =
        List.range' id (pegRowsGo rows cols cs rs vm ho fuel row id).length := by
  intro fuel
  induction fuel with
  | zero => intro row id; rfl
  | succ f ih =>
    intro row id
    by_cases h1 : row < rows
    · simp only [pegRowsGo, if_pos h1, List.map_append, List.length_append]
      rw [pegRowGo_ids, ih]
      have happ := List.range'_append id
        (pegRowGo row cols cs rs vm ho cols 1 id).length
        (pegRowsGo rows cols cs rs vm ho f (row + 1)
          (id + (pegRowGo row cols cs rs vm ho cols 1 id).length)).length 1
      simp only [one_mul] at happ
      rw [happ, Nat.add_comm]
    · simp [pegRowsGo, h1]

theorem createPegs_ids (rows cols : Nat) (cs rs vm ho : Int) :
    (createPegs rows cols cs rs vm ho).map (fun p => p.id) =
      List.range (createPegs rows cols cs rs vm ho).length := by
  rw [createPegs, pegRowsGo_ids, List.range_eq_range']

theorem setPegOwner_ids (pegs : List Peg) :
    ∀ (i : Nat) (o : OwnerVal),
      (setPegOwner pegs i o).map (fun p => p.id) = pegs.map (fun p => p.id) := by
  induction pegs with
  | nil => intro i o; rfl
  | cons p l ih =>
    intro i o
    match i with
    | 0 => simp [setPegOwner]
    | j + 1 =>
      cases hq : l[j]? with
      | none =>
        simp [setPegOwner, List.get?_eq_getElem?, List.getElem?_cons_succ, hq]
      | some q =>
        have h2 := ih j o
        simp only [setPegOwner, List.get?_eq_getElem?, hq] at h2
        simp only [setPegOwner, List.get?_eq_getElem?, List.getElem?_cons_succ,
          hq, List.set_cons_succ, List.map_cons]
        rw [h2]

theorem processPair_pegs_ids (s : GameState) (p : CollisionPair) :
    (processPair s p).pegs.map (fun q => q.id) = s.pegs.map (fun q => q.id) := by
  rw [processPair_pegs]
  by_cases h : p.aLabel = "peg"
  · rw [if_pos h, setPegOwner_ids]
  · rw [if_neg h]

theorem foldl_processPair_pegs_ids (pairs : List CollisionPair) :
    ∀ s : GameState,
      (pairs.foldl processPair s).pegs.map (fun q => q.id) =
        s.pegs.map (fun q => q.id) := by
  induction pairs with
  | nil => intro s; rfl
  | cons a l ih =>
    intro s
    rw [List.foldl_cons, ih, processPair_pegs_ids]

@[simp] theorem onCollisionStart_pegs_ids (pairs : List CollisionPair) (s : GameState) :
    (onCollisionStart s pairs).pegs.map (fun q => q.id) =
      s.pegs.map (fun q => q.id) :=
  foldl_processPair_pegs_ids pairs s

theorem tick_pegs_ids (s : GameState) (e : List CollisionPair) :
    (tick s e).pegs.map (fun q => q.id) = s.pegs.map (fun q => q.id) := by
  simp [tick, apply_ite (List.map (fun q : Peg => q.id))]

/-! ### Claim theorems for C5, C6, C7 -/

/-- Claim C5: the Winner flag transitions only from false to true and never
back — once `winner` is true, every later `detectWinner` call leaves it true,
every later collision batch leaves the score map unchanged (and the flag
true), and the flag stays true through any further ticks. -/
theorem winner_latch (s : GameState) (events : List CollisionPair)
    (batches : List (List CollisionPair)) (hw : s.winner = true) :
    (detectWinner s).winner = true
    ∧ (onCollisionStart s events).winner = true
    ∧ (onCollisionStart s events).score = s.score
    ∧ (tick s events).winner = true
    ∧ (runTicks s batches).winner = true :=
  ⟨detectWinner_winner_of_true s hw,
   by rw [onCollisionStart_winner]; exact hw,
   foldl_processPair_score_of_winner events s hw,
   tick_winner_of_true s events hw,
   runTicks_winner_of_true batches s hw⟩

/-- Claim C5 witness at a concrete winning state and a concrete
(peg, chip) contact. -/
theorem winner_latch_witness :
    (detectWinner
        { frame := 0, chips := [], pegs := [], winner := true,
          score := initialScore, targetScore := 10, targetScoreInterval := true,
          decayIntervals := [0], loop := none, nextHandle := 1,
          worldBodies := [], inputBuffer := [] }).winner = true
    ∧ (onCollisionStart
        { frame := 0, chips := [], pegs := [], winner := true,
          score := initialScore, targetScore := 10, targetScoreInterval := true,
          decayIntervals := [0], loop := none, nextHandle := 1,
          worldBodies := [], inputBuffer := [] }
        [{ aLabel := "peg", aPegIdx := 0, bLabel := "chip", bOwnerId := some 2,
           bId := 1, bBody := 9 }]).winner = true
    ∧ (onCollisionStart
        { frame := 0, chips := [], pegs := [], winner := true,
          score := initialScore, targetScore := 10, targetScoreInterval := true,
          decayIntervals := [0], loop := none, nextHandle := 1,
          worldBodies := [], inputBuffer := [] }
        [{ aLabel := "peg", aPegIdx := 0, bLabel := "chip", bOwnerId := some 2,
           bId := 1, bBody := 9 }]).score =
      ({ frame := 0, chips := [], pegs := [], winner := true,
         score := initialScore, targetScore := 10, targetScoreInterval := true,
         decayIntervals := [0], loop := none, nextHandle := 1,
         worldBodies := [], inputBuffer := [] } : GameState).score
    ∧ (tick
        { frame := 0, chips := [], pegs := [], winner := true,
          score := initialScore, targetScore := 10, targetScoreInterval := true,
          decayIntervals := [0], loop := none, nextHandle := 1,
          worldBodies := [], inputBuffer := [] }
        [{ aLabel := "peg", aPegIdx := 0, bLabel := "chip", bOwnerId := some 2,
           bId := 1, bBody := 9 }]).winner = true
    ∧ (runTicks
        { frame := 0, chips := [], pegs := [], winner := true,
          score := initialScore, targetScore := 10, targetScoreInterval := true,
          decayIntervals := [0], loop := none, nextHandle := 1,
          worldBodies := [], inputBuffer := [] }
        [[{ aLabel := "peg", aPegIdx := 0, bLabel := "chip", bOwnerId := some 2,
            bId := 1, bBody := 9 }]]).winner = true :=
  winner_latch _ _ _ rfl

/-- Claim C6: the frame counter is incremented exactly once per executed tick,
increases by exactly the number of executed ticks across a catch-up burst,
and never decreases. -/
theorem frame_per_tick (s : GameState) (events : List CollisionPair)
    (batches : List (List CollisionPair)) :
    (tick s events).frame = s.frame + 1
    ∧ (runTicks s batches).frame = s.frame + (batches.length : Int)
    ∧ s.frame ≤ (runTicks s batches).frame :=
  ⟨tick_frame s events,
   runTicks_frame batches s,
   by rw [runTicks_frame]; omega⟩

/-- Claim C7: whenever `bodyA` of a processed pair carries the label "peg",
the peg's `ownerId` is overwritten with `bodyB.parentObject.ownerId` — the
state `s` is arbitrary (in particular `s.winner` may be true) and no
condition is placed on `bodyB`'s label. -/
theorem peg_owner_overwritten (s : GameState) (p : CollisionPair)
    (ha : p.aLabel = "peg") (hidx : p.aPegIdx < s.pegs.length) :
    ((processPair s p).pegs.get? p.aPegIdx).map (fun peg => peg.ownerId) =
      some p.bOwnerId := by
  rw [processPair_pegs, if_pos ha]
  exact setPegOwner_get_ownerId s.pegs p.aPegIdx p.bOwnerId hidx

@[simp] theorem foldl_spawnChip_inputBuffer (l : List Input) :
    ∀ s : GameState, (l.foldl spawnChip s).inputBuffer = s.inputBuffer := by
  induction l with
  | nil => intro s; rfl
  | cons a l ih => intro s; rw [List.foldl_cons, ih, spawnChip_inputBuffer]

theorem registryHasKey_append (x y : List (String × Chip)) (k : String) :
    registryHasKey (x ++ y) k = (registryHasKey x k || registryHasKey y k) := by
  simp [registryHasKey, List.any_append]

theorem objSet_absent (reg : List (String × Chip)) (k : String) (c : Chip)
    (h : registryHasKey reg k = false) : objSet reg k c = reg ++ [(k, c)] := by
  simp [objSet, h]

theorem spawnChip_chips_absent (s : GameState) (i : Input)
    (h : registryHasKey s.chips (combinedId i) = false) :
    (spawnChip s i).chips =
      s.chips ++
        [(combinedId i, { id := i.id, ownerId := i.ownerId, body := s.nextHandle })] := by
  simp [spawnChip, objSet_absent _ _ _ h]

theorem spawnChip_nextHandle (s : GameState) (i : Input) :
    (spawnChip s i).nextHandle = s.nextHandle + 1 := rfl

theorem spawn_fold_chips (inputs : List Input) :
    ∀ s : GameState,
      (∀ inp ∈ inputs, registryHasKey s.chips (combinedId inp) = false) →
      inputs.Pairwise (fun a b => combinedId a ≠ combinedId b) →
      (inputs.foldl spawnChip s).chips = s.chips ++ spawnedFrom s.nextHandle inputs := by
  induction inputs with
  | nil => intro s _ _; simp [spawnedFrom]
  | cons a l ih =>
    intro s habs hpw
    rw [List.foldl_cons]
    have ha : registryHasKey s.chips (combinedId a) = false :=
      habs a (List.mem_cons_self a l)
    have hpw2 := List.pairwise_cons.mp hpw
    have habs2 : ∀ inp ∈ l,
        registryHasKey (spawnChip s a).chips (combinedId inp) = false := by
      intro inp hm
      rw [spawnChip_chips_absent s a ha, registryHasKey_append,
        habs inp (List.mem_cons_of_mem a hm)]
      have hne : combinedId a ≠ combinedId inp := hpw2.1 inp hm
      simp [registryHasKey, hne]
    rw [ih (spawnChip s a) habs2 hpw2.2, spawnChip_chips_absent s a ha,
      spawnChip_nextHandle]
    simp [spawnedFrom, List.append_assoc]

theorem spawnedFrom_length (inputs : List Input) :
    ∀ h0 : Nat, (spawnedFrom h0 inputs).length = inputs.length := by
  induction inputs with
  | nil => intro h0; rfl
  | cons a l ih => intro h0; simp [spawnedFrom, ih]

theorem spawnedFrom_keys (inputs : List Input) :
    ∀ h0 : Nat, (spawnedFrom h0 inputs).map (fun p => p.1) = inputs.map combinedId := by
  induction inputs with
  | nil => intro h0; rfl
  | cons a l ih => intro h0; simp [spawnedFrom, ih]

theorem spawnedFrom_lookup (inputs : List Input) :
    ∀ (h0 : Nat) (inp : Input), inp ∈ inputs →
      inputs.Pairwise (fun a b => combinedId a ≠ combinedId b) →
      ∃ b : Nat, objLookup (spawnedFrom h0 inputs) (combinedId inp) =
        some { id := inp.id, ownerId := inp.ownerId, body := b } := by
  induction inputs with
  | nil => intro h0 inp hm _; exact absurd hm (List.not_mem_nil inp)
  | cons a l ih =>
    intro h0 inp hm hpw
    have hpw2 := List.pairwise_cons.mp hpw
    rcases List.mem_cons.mp hm with heq | hmem
    · subst heq
      refine ⟨h0, ?_⟩
      simp [spawnedFrom, objLookup]
    · have hne : combinedId a ≠ combinedId inp := hpw2.1 inp hmem
      obtain ⟨b, hb⟩ := ih (h0 + 1) inp hmem hpw2.2
      refine ⟨b, ?_⟩
      simp only [spawnedFrom, objLookup] at hb ⊢
      rw [List.find?_cons_of_neg]
      · exact hb
      · simp [hne]

theorem objLookup_delete (reg : List (String × Chip)) (k : String) :
    objLookup (objDelete reg k) k = none := by
  induction reg with
  | nil => rfl
  | cons e l ih =>
    simp only [objDelete, List.filter_cons] at ih ⊢
    by_cases h : e.1 == k
    · simpa [h] using ih
    · simp only [Bool.not_eq_true] at h
      simp only [h, Bool.not_false, if_true, objLookup, List.find?_cons, cond_eq_if,
        if_neg (by simp [h] : ¬ (e.1 == k) = true)] at ih ⊢
      exact ih

theorem processPair_ground (s : GameState) (p : CollisionPair)
    (ha : p.aLabel = "ground") :
    processPair s p =
      { s with
        worldBodies := s.worldBodies.erase p.bBody,
        chips := objDelete s.chips (jsStr p.bOwnerId ++ toString p.bId) } := by
  have h1 : ¬ p.aLabel = "peg" := by rw [ha]; decide
  simp [processPair, ha, h1]

/-- Claim C8: on a (ground-boundary, chip) collision the chip is despawned
regardless of the Winner flag (the state is arbitrary): its body is removed
from the engine world, its registry entry under its combined key is deleted,
and no chip with that combined key appears in the next built snapshot.  The
well-formedness hypothesis says every registered chip is stored under its own
combined key, which is how `processInputBuffer` registers them. -/
theorem ground_despawns_chip (s : GameState) (p : CollisionPair)
    (ha : p.aLabel = "ground") ( _hb : p.bLabel = "chip")
    (hnd : s.worldBodies.Nodup)
    (hwf : ∀ e ∈ s.chips, e.1 = toString e.2.ownerId ++ toString e.2.id) :
    p.bBody ∉ (processPair s p).worldBodies
    ∧ objLookup (processPair s p).chips (jsStr p.bOwnerId ++ toString p.bId) = none
    ∧ ∀ ci ∈ (generateSnapshot (processPair s p)).chips,
        toString ci.ownerId ++ toString ci.id ≠ jsStr p.bOwnerId ++ toString p.bId := by
  rw [processPair_ground s p ha]
  refine ⟨hnd.not_mem_erase, objLookup_delete _ _, ?_⟩
  intro ci hci
  simp only [generateSnapshot, List.mem_map] at hci
  obtain ⟨e, he, rfl⟩ := hci
  have he2 : e ∈ s.chips ∧ (e.1 == jsStr p.bOwnerId ++ toString p.bId) = false := by
    simpa [objDelete, List.mem_filter] using he
  have hkey := hwf e he2.1
  intro hcontra
  rw [← hkey] at hcontra
  rw [hcontra] at he2
  simp at he2

/-- Claim C8 witness: player 1's chip 5 (registered under key "15", body 3)
crosses the ground while a winner is already declared; it is removed from the
engine world, its registry entry is gone, and the next snapshot has no chip
with key "15". -/
theorem ground_despawns_chip_witness :
    let s : GameState :=
      { frame := 0, chips := [("15", { id := 5, ownerId := 1, body := 3 })],
        pegs := [], winner := true, score := initialScore, targetScore := 10,
        targetScoreInterval := true, decayIntervals := [0], loop := none,
        nextHandle := 4, worldBodies := [3], inputBuffer := [] }
    let p : CollisionPair :=
      { aLabel := "ground", aPegIdx := 0, bLabel := "chip", bOwnerId := some 1,
        bId := 5, bBody := 3 }
    p.bBody ∉ (processPair s p).worldBodies
    ∧ objLookup (processPair s p).chips (jsStr p.bOwnerId ++ toString p.bId) = none
    ∧ ∀ ci ∈ (generateSnapshot (processPair s p)).chips,
        toString ci.ownerId ++ toString ci.id ≠ jsStr p.bOwnerId ++ toString p.bId :=
  ground_despawns_chip _ _ rfl rfl (by decide) (by decide)

/-- Claim C2 counterexample: the inputs (ownerId 1, id 23) and
(ownerId 12, id 3) have distinct (ownerId, id) pairs, but the combined key is
built by string concatenation and both give "123", so draining the two inputs
leaves one chip in the World, not two. -/
theorem chip_key_collision :
    ((1 : Int), (23 : Int)) ≠ ((12 : Int), (3 : Int))
    ∧ combinedId { id := 23, ownerId := 1, x := 0, y := 0 } =
        combinedId { id := 3, ownerId := 12, x := 0, y := 0 }
    ∧ (processInputBuffer { initState 0 0 0 0 0 0 with
        inputBuffer := [{ id := 23, ownerId := 1, x := 0, y := 0 },
                        { id := 3, ownerId := 12, x := 0, y := 0 }] }).chips.length
        = 1 := by decide

/-- Claim C2 amended: for every sequence of `newChip` inputs whose combined
string keys `String(ownerId) + String(id)` are pairwise distinct (distinct
(ownerId, id) pairs alone do not suffice), one full drain from an empty chip
registry leaves exactly one chip per input in the World, each retrievable by
its combined key, the keys are unique among live chips, and the buffer ends
empty. -/
theorem chips_after_drain (inputs : List Input) (s : GameState)
    (hempty : s.chips = [])
    (hkeys : inputs.Pairwise (fun a b => combinedId a ≠ combinedId b)) :
    (processInputBuffer { s with inputBuffer := inputs }).chips.length = inputs.length
    ∧ (∀ inp ∈ inputs, ∃ b : Nat,
        objLookup (processInputBuffer { s with inputBuffer := inputs }).chips
          (combinedId inp) =
          some { id := inp.id, ownerId := inp.ownerId, body := b })
    ∧ ((processInputBuffer { s with inputBuffer := inputs }).chips.map
        (fun p => p.1)).Nodup
    ∧ (processInputBuffer { s with inputBuffer := inputs }).inputBuffer = [] := by
  have hrun : processInputBuffer { s with inputBuffer := inputs } =
      inputs.foldl spawnChip { s with inputBuffer := [] } := rfl
  have hchips : (inputs.foldl spawnChip { s with inputBuffer := [] }).chips =
      spawnedFrom s.nextHandle inputs := by
    have habs : ∀ inp ∈ inputs,
        registryHasKey ({ s with inputBuffer := [] } : GameState).chips
          (combinedId inp) = false := by
      intro inp _
      show registryHasKey s.chips (combinedId inp) = false
      rw [hempty]
      rfl
    have h := spawn_fold_chips inputs { s with inputBuffer := [] } habs hkeys
    rw [h]
    show s.chips ++ spawnedFrom s.nextHandle inputs = _
    rw [hempty, List.nil_append]
  refine ⟨?_, ?_, ?_, ?_⟩
  · rw [hrun, hchips, spawnedFrom_length]
  · intro inp hm
    rw [hrun, hchips]
    exact spawnedFrom_lookup inputs s.nextHandle inp hm hkeys
  · rw [hrun, hchips, spawnedFrom_keys]
    exact List.pairwise_map.mpr hkeys
  · rw [hrun, foldl_spawnChip_inputBuffer]

/-- Claim C2 amended witness: two inputs with distinct combined keys "01" and
"10" drained from the post-init state. -/
theorem chips_after_drain_witness :
    (processInputBuffer { initState 0 0 0 0 0 0 with
        inputBuffer := [{ id := 1, ownerId := 0, x := 0, y := 0 },
                        { id := 0, ownerId := 1, x := 0, y := 0 }] }).chips.length = 2
    ∧ (∀ inp ∈ [({ id := 1, ownerId := 0, x := 0, y := 0 } : Input),
                 { id := 0, ownerId := 1, x := 0, y := 0 }], ∃ b : Nat,
        objLookup (processInputBuffer { initState 0 0 0 0 0 0 with
            inputBuffer := [{ id := 1, ownerId := 0, x := 0, y := 0 },
                            { id := 0, ownerId := 1, x := 0, y := 0 }] }).chips
          (combinedId inp) =
          some { id := inp.id, ownerId := inp.ownerId, body := b })
    ∧ ((processInputBuffer { initState 0 0 0 0 0 0 with
        inputBuffer := [{ id := 1, ownerId := 0, x := 0, y := 0 },
                        { id := 0, ownerId := 1, x := 0, y := 0 }] }).chips.map
        (fun p => p.1)).Nodup
    ∧ (processInputBuffer { initState 0 0 0 0 0 0 with
        inputBuffer := [{ id := 1, ownerId := 0, x := 0, y := 0 },
                        { id := 0, ownerId := 1, x := 0, y := 0 }] }).inputBuffer = [] :=
  chips_after_drain _ _ rfl (by decide)

/-- Claim C1 (code divergence): a peg formerly owned by player 0 is hit by
player 1's chip while no winner is declared.  The code increments
`score[1]` and transfers the peg, but `if (formerPegOwner)` is JS truthiness
and the number `0` is falsy, so `score[0]` is NOT decremented — the claimed
"A loses 1 when A is owned" fails for A = player 0, and the total score sum
changes by +1 instead of 0. -/
theorem player_zero_decrement_skipped :
    let s : GameState :=
      { frame := 0, chips := [],
        pegs := [{ id := 0, x := 0, y := 0, ownerId := some 0 }],
        winner := false, score := initialScore, targetScore := 10,
        targetScoreInterval := true, decayIntervals := [0], loop := none,
        nextHandle := 1, worldBodies := [], inputBuffer := [] }
    let p : CollisionPair :=
      { aLabel := "peg", aPegIdx := 0, bLabel := "chip", bOwnerId := some 1,
        bId := 7, bBody := 2 }
    (processPair s p).score =
        [("0", some 0), ("1", some 1), ("2", some 0), ("3", some 0)]
    ∧ (processPair s p).pegs.map (fun peg => peg.ownerId) = [some 1]
    ∧ jsTruthy (some 0) = false := by decide

/-- Claim C3 (code divergence): `stopGame` is `clearInterval(this.loop)`, but
`this.loop` is never assigned anywhere in the class, so on every reachable
state (`loop = none`) stopping is a no-op: the decay interval stays live.
Moreover `startGame` always ends in `setImmediate(this.startGame...)`, so the
tick loop reschedules itself unconditionally.  Concretely, on a state where
player 0 has reached the target, the tick latches the winner and calls
`stopGame`, yet the decay interval `5` is still live afterwards. -/
theorem stop_game_is_noop (s : GameState) (hl : s.loop = none)
    (batches : List (List CollisionPair)) :
    stopGame s = s
    ∧ (startGameBurst s batches).2 = true
    ∧ (let sWin : GameState :=
        { frame := 0, chips := [], pegs := [], winner := false,
          score := [("0", some 10), ("1", some 0), ("2", some 0), ("3", some 0)],
          targetScore := 10, targetScoreInterval := true, decayIntervals := [5],
          loop := none, nextHandle := 6, worldBodies := [], inputBuffer := [] }
       (tick sWin []).winner = true ∧ (tick sWin []).decayIntervals = [5]) := by
  refine ⟨by simp [stopGame, hl], rfl, by decide⟩

/-- Claim C3 witness: the no-op and the unconditional reschedule at the
post-init state. -/
theorem stop_game_is_noop_witness :
    stopGame (initState 1 2 0 0 0 0) = initState 1 2 0 0 0 0
    ∧ (startGameBurst (initState 1 2 0 0 0 0) [[]]).2 = true
    ∧ (let sWin : GameState :=
        { frame := 0, chips := [], pegs := [], winner := false,
          score := [("0", some 10), ("1", some 0), ("2", some 0), ("3", some 0)],
          targetScore := 10, targetScoreInterval := true, decayIntervals := [5],
          loop := none, nextHandle := 6, worldBodies := [], inputBuffer := [] }
       (tick sWin []).winner = true ∧ (tick sWin []).decayIntervals = [5]) :=
  stop_game_is_noop (initState 1 2 0 0 0 0) rfl [[]]

/-- Claim C4 counterexample: a `newChip` payload with ownerId 7 (outside
[0,4)) is inserted into the input buffer unvalidated, and the score-map
access for player 7 does not fail — it silently extends the map with a new
key holding `NaN`.  No `UnknownPlayerError` exists in the code. -/
theorem unknown_player_counterexample :
    (onNewChip (initState 0 0 0 0 0 0)
        { id := 5, ownerId := 7, x := 0, y := 0 }).inputBuffer =
      [{ id := 5, ownerId := 7, x := 0, y := 0 }]
    ∧ incrementScore initialScore (some 7) = initialScore ++ [("7", none)]
    ∧ incrementScore initialScore (some 7) ≠ initialScore := by decide

/-- Claim C4 amended: an ownerId arriving in a `newChip` payload is not
validated (the handler inserts it into the buffer as-is), and a score-map
access with an identifier whose key is absent silently creates that key with
value `NaN` instead of failing. -/
theorem unknown_player_silent_mutation (m : ScoreMap) (k : Int)
    (habs : scoreHasKey m (toString k) = false) :
    incrementScore m (some k) = m ++ [(toString k, none)]
    ∧ ∀ (s : GameState) (c : Input),
        (onNewChip s c).inputBuffer = s.inputBuffer ++ [c] := by
  constructor
  · simp [incrementScore, jsAddAssign, jsStr, habs]
  · intro s c; rfl

/-- Claim C4 amended witness at player identifier 9 over the initial score
map. -/
theorem unknown_player_silent_mutation_witness :
    incrementScore initialScore (some 9) = initialScore ++ [("9", none)]
    ∧ ∀ (s : GameState) (c : Input),
        (onNewChip s c).inputBuffer = s.inputBuffer ++ [c] :=
  unknown_player_silent_mutation initialScore 9 (by decide)

/-- Claim C9: from the post-init state, the decay interval is started on the
first executed tick, and after any nonempty burst of ticks exactly one decay
interval is live (never restarted or duplicated — the flag latches);
`targetScore` still equals the starting constant after any number of ticks
(ticks never change it), and after `N` firings of the live interval it equals
the constant minus `N`, with no floor (`N` is arbitrary). -/
theorem decay_timer_once (rows cols : Nat) (cs rs vm ho : Int)
    (batches : List (List CollisionPair)) (hne : batches ≠ []) (N : Nat) :
    (∀ e : List CollisionPair,
      (tick (initState rows cols cs rs vm ho) e).decayIntervals.length = 1)
    ∧ (runTicks (initState rows cols cs rs vm ho) batches).targetScoreInterval = true
    ∧ (runTicks (initState rows cols cs rs vm ho) batches).decayIntervals.length = 1
    ∧ (runTicks (initState rows cols cs rs vm ho) batches).targetScore = TARGET_SCORE
    ∧ ∀ h : Nat,
        (runTicks (initState rows cols cs rs vm ho) batches).decayIntervals = [h] →
        ((fun t => fireDecay t h)^[N]
            (runTicks (initState rows cols cs rs vm ho) batches)).targetScore =
          TARGET_SCORE - N := by
  have h0tsi : (initState rows cols cs rs vm ho).targetScoreInterval = false := rfl
  have h0loop : (initState rows cols cs rs vm ho).loop = none := rfl
  have hfirst : ∀ e : List CollisionPair,
      (tick (initState rows cols cs rs vm ho) e).decayIntervals.length = 1 := by
    intro e
    rw [tick_decay_len_first _ e h0tsi h0loop]
    rfl
  have hfold : ∀ (l : List (List CollisionPair)) (t : GameState),
      t.targetScoreInterval = true → t.loop = none →
      (l.foldl tick t).decayIntervals = t.decayIntervals
      ∧ (l.foldl tick t).targetScoreInterval = true
      ∧ (l.foldl tick t).loop = none
      ∧ (l.foldl tick t).targetScore = t.targetScore := by
    intro l
    induction l with
    | nil => intro t ht hl; exact ⟨rfl, ht, hl, rfl⟩
    | cons c l2 ih =>
      intro t ht hl
      rw [List.foldl_cons]
      have h2 := ih (tick t c) (tick_tsi t c) (by rw [tick_loop]; exact hl)
      refine ⟨?_, h2.2.1, h2.2.2.1, ?_⟩
      · rw [h2.1, tick_decay_of_started t c ht hl]
      · rw [h2.2.2.2, tick_targetScore]
  obtain ⟨b, bs, rfl⟩ := List.exists_cons_of_ne_nil hne
  have hrun : runTicks (initState rows cols cs rs vm ho) (b :: bs) =
      bs.foldl tick (tick (initState rows cols cs rs vm ho) b) := by
    rw [runTicks, List.foldl_cons]
  have h1tsi := tick_tsi (initState rows cols cs rs vm ho) b
  have h1loop : (tick (initState rows cols cs rs vm ho) b).loop = none := by
    rw [tick_loop]; exact h0loop
  have hmain := hfold bs (tick (initState rows cols cs rs vm ho) b) h1tsi h1loop
  have hlen : (runTicks (initState rows cols cs rs vm ho) (b :: bs)).decayIntervals.length
      = 1 := by
    rw [hrun, hmain.1]; exact hfirst b
  have hts : (runTicks (initState rows cols cs rs vm ho) (b :: bs)).targetScore =
      TARGET_SCORE := by
    rw [hrun, hmain.2.2.2, tick_targetScore]
    rfl
  refine ⟨hfirst, by rw [hrun]; exact hmain.2.1, hlen, hts, ?_⟩
  intro h hdec
  have hfire : ∀ (n : Nat) (t : GameState), t.decayIntervals = [h] →
      ((fun u => fireDecay u h)^[n] t).targetScore = t.targetScore - n
      ∧ ((fun u => fireDecay u h)^[n] t).decayIntervals = [h] := by
    intro n
    induction n with
    | zero => intro t ht; exact ⟨by simp, ht⟩
    | succ m ihm =>
      intro t ht
      rw [Function.iterate_succ_apply]
      have hstep : fireDecay t h = { t with targetScore := t.targetScore - 1 } := by
        simp [fireDecay, ht]
      obtain ⟨hts2, hdec2⟩ := ihm (fireDecay t h) (by rw [hstep]; exact ht)
      refine ⟨?_, hdec2⟩
      rw [hts2, hstep]
      show t.targetScore - 1 - (m : Int) = t.targetScore - ((m + 1 : Nat) : Int)
      push_cast
      ring
  rw [(hfire N _ hdec).1, hts]

/-- Claim C9 witness: one tick from the post-init state on a 1×2 board, then
three firings of the single live decay interval (handle 0). -/
theorem decay_timer_once_witness :
    (∀ e : List CollisionPair,
      (tick (initState 1 2 0 0 0 0) e).decayIntervals.length = 1)
    ∧ (runTicks (initState 1 2 0 0 0 0) [[]]).targetScoreInterval = true
    ∧ (runTicks (initState 1 2 0 0 0 0) [[]]).decayIntervals.length = 1
    ∧ (runTicks (initState 1 2 0 0 0 0) [[]]).targetScore = TARGET_SCORE
    ∧ ∀ h : Nat,
        (runTicks (initState 1 2 0 0 0 0) [[]]).decayIntervals = [h] →
        ((fun t => fireDecay t h)^[3]
            (runTicks (initState 1 2 0 0 0 0) [[]])).targetScore =
          TARGET_SCORE - 3 :=
  decay_timer_once 1 2 0 0 0 0 [[]] (by decide) 3

/-- Claim C10: `_createPegs` assigns ids 0,1,2,… in list order, ticks never
change the id sequence, and on any state whose peg ids are the ascending
range (as established at init and preserved by every tick) the built snapshot
lists pegs in strictly ascending id order with entries exactly
`{id, ownerId}`; building the snapshot returns the state unchanged (the
method performs reads only). -/
theorem snapshot_pegs_sorted_pure :
    (∀ (rows cols : Nat) (cs rs vm ho : Int),
      (createPegs rows cols cs rs vm ho).map (fun p => p.id) =
        List.range (createPegs rows cols cs rs vm ho).length)
    ∧ (∀ (s : GameState) (e : List CollisionPair),
        (tick s e).pegs.map (fun p => p.id) = s.pegs.map (fun p => p.id))
    ∧ (∀ s : GameState,
        s.pegs.map (fun p => p.id) = List.range s.pegs.length →
        (generateSnapshot s).pegs =
            s.pegs.map (fun p => { id := p.id, ownerId := p.ownerId })
          ∧ ((generateSnapshot s).pegs.map (fun pi => pi.id)).Pairwise (· < ·)
          ∧ generateSnapshotT s = (generateSnapshot s, s)) := by
  refine ⟨createPegs_ids, tick_pegs_ids, ?_⟩
  intro s hs
  refine ⟨rfl, ?_, rfl⟩
  have hcomp : (generateSnapshot s).pegs.map (fun pi => pi.id) =
      s.pegs.map (fun p => p.id) := by
    simp [generateSnapshot, List.map_map]
  rw [hcomp, hs]
  exact List.pairwise_lt_range _

/-- Claim C10 witness on the 2×3 board built at init. -/
theorem snapshot_pegs_sorted_pure_witness :
    (generateSnapshot (initState 2 3 1 2 3 4)).pegs =
        (initState 2 3 1 2 3 4).pegs.map (fun p => { id := p.id, ownerId := p.ownerId })
    ∧ ((generateSnapshot (initState 2 3 1 2 3 4)).pegs.map
        (fun pi => pi.id)).Pairwise (· < ·)
    ∧ generateSnapshotT (initState 2 3 1 2 3 4) =
        (generateSnapshot (initState 2 3 1 2 3 4), initState 2 3 1 2 3 4) :=
  snapshot_pegs_sorted_pure.2.2 (initState 2 3 1 2 3 4) (by decide)

/-- Claim C7 witness: a single peg owned by nobody, a winner already
declared, and `bodyB` a non-chip body — ownership is still overwritten. -/
theorem peg_owner_overwritten_witness :
    ((processPair
        { frame := 0, chips := [],
          pegs := [{ id := 0, x := 0, y := 0, ownerId := none }],
          winner := true, score := initialScore, targetScore := 10,
          targetScoreInterval := true, decayIntervals := [0], loop := none,
          nextHandle := 1, worldBodies := [], inputBuffer := [] }
        { aLabel := "peg", aPegIdx := 0, bLabel := "wall", bOwnerId := some 3,
          bId := 0, bBody := 0 }).pegs.get? 0).map (fun peg => peg.ownerId) =
      some (some 3) :=
  peg_owner_overwritten _ _ rfl (by decide)

end Plinko
